import Mathlib

/-!
Shallow embedding of the Timberlogs TypeScript client SDK
(timberlogs-typescript-sdk).  The repository ships two closely related
copies of the client: the file `src/client.ts` (no entry validation, no
constructor argument checks, optional Convex mutation transport) and an
unnamed sibling source file that adds `validateLogEntry`, constructor
checks for `batchSize`/`flushInterval`, and always uses the HTTP
transport.  Definitions below embed the validating client (suffix-free
names) and, where a claim is about `src/client.ts` specifically, the
non-validating variant (suffix `V1`).

TypeScript `number` configuration fields that the constructor tests with
`Number.isInteger` are modelled as rationals (a rational is an integer
iff its denominator is 1); retry counts and millisecond delays, which
the code only doubles, caps and counts with, are modelled as naturals.
Opaque `Record<string, unknown>` payloads are modelled as an optional
string: the code never inspects them, it only moves them around.
The asynchronous transport (global `fetch`) is modelled as an explicit
oracle `Nat → Except String Unit` giving each attempt's outcome, and
`sleep` as the recorded list of delays.
-/

/-- The four log levels of `LogLevel` in `types.ts`. -/
inductive TbLevel
| debug
| info
| warn
| error
deriving DecidableEq, Repr

/-- The `Environment` union type in `types.ts`. -/
inductive TbEnvironment
| development
| staging
| production
deriving DecidableEq, Repr

/-- Embeds the `LOG_LEVEL_PRIORITY` table of the client source:
debug = 0, info = 1, warn = 2, error = 3. -/
def LOG_LEVEL_PRIORITY : TbLevel → Nat
| .debug => 0
| .info => 1
| .warn => 2
| .error => 3

/-- Embeds the `LogEntry` interface of `types.ts`.  Optional fields are
`Option`; the opaque `data` payload is an optional string. -/
structure LogEntry where
  level : TbLevel
  message : String
  data : Option String := none
  userId : Option String := none
  sessionId : Option String := none
  requestId : Option String := none
  errorName : Option String := none
  errorStack : Option String := none
  tags : Option (List String) := none
  flowId : Option String := none
  stepIndex : Option Int := none
  dataset : Option String := none
  timestamp : Option String := none
  ipAddress : Option String := none
  country : Option String := none
deriving DecidableEq, Repr

/-- Embeds `Omit<CreateLogArgs, "apiKey">` of `types.ts`: the shape of a
queued record. -/
structure QueuedRecord where
  level : TbLevel
  message : String
  source : String
  environment : TbEnvironment
  version : Option String := none
  userId : Option String := none
  sessionId : Option String := none
  requestId : Option String := none
  data : Option String := none
  errorName : Option String := none
  errorStack : Option String := none
  tags : Option (List String) := none
  flowId : Option String := none
  stepIndex : Option Int := none
  dataset : Option String := none
  timestamp : Option String := none
  ipAddress : Option String := none
  country : Option String := none
deriving DecidableEq, Repr

/-- Embeds the resolved `retry` block of the client's private config
(`Required<NonNullable<TimberlogsConfig["retry"]>>`). -/
structure RetryConfig where
  maxRetries : Nat
  initialDelayMs : Nat
  maxDelayMs : Nat
deriving DecidableEq, Repr

/-- Embeds the optional `retry` field of `TimberlogsConfig`. -/
structure RetryOptions where
  maxRetries : Option Nat := none
  initialDelayMs : Option Nat := none
  maxDelayMs : Option Nat := none
deriving DecidableEq, Repr

/-- Embeds the `DEFAULT_RETRY` constant of the client source. -/
def DEFAULT_RETRY : RetryConfig :=
  { maxRetries := 3, initialDelayMs := 1000, maxDelayMs := 30000 }

/-- Embeds the `TimberlogsConfig` interface of `types.ts`: the
constructor's argument.  `batchSize` and `flushInterval` are arbitrary
TypeScript numbers, modelled as rationals.  The `onError` callback is
modelled by its presence. -/
structure TimberlogsConfig where
  source : String
  environment : TbEnvironment
  apiKey : Option String := none
  version : Option String := none
  userId : Option String := none
  sessionId : Option String := none
  dataset : Option String := none
  batchSize : Option ℚ := none
  flushInterval : Option ℚ := none
  minLevel : Option TbLevel := none
  hasOnError : Bool := false
  retry : Option RetryOptions := none
deriving DecidableEq, Repr

/-- Embeds the client's resolved private `config` field after the
constructor filled in defaults. -/
structure ClientConfig where
  source : String
  environment : TbEnvironment
  apiKey : Option String := none
  version : Option String := none
  userId : Option String := none
  sessionId : Option String := none
  dataset : Option String := none
  batchSize : ℚ
  flushInterval : ℚ
  minLevel : TbLevel
  hasOnError : Bool := false
  retry : RetryConfig
deriving DecidableEq, Repr

/-- Embeds the mutable state of `TimberlogsClient`: the resolved config
and the pending queue.  (The auto-flush timer handle carries no data
relevant to the claims and is not modelled.) -/
structure TimberlogsClient where
  config : ClientConfig
  queue : List QueuedRecord := []
deriving DecidableEq, Repr

/-- Embeds `TimberlogsClient.shouldLog` of the client source:
emit iff the level's priority is at least the configured minimum's. -/
def shouldLog (cfg : ClientConfig) (level : TbLevel) : Bool :=
  LOG_LEVEL_PRIORITY level ≥ LOG_LEVEL_PRIORITY cfg.minLevel

/-- Embeds the validating client's constructor.  It throws (here:
returns `.error`) when `batchSize` is supplied and is below 1 or not an
integer, or when `flushInterval` is supplied and negative; otherwise it
builds the resolved config with the documented defaults. -/
def TimberlogsClient.create (config : TimberlogsConfig) :
    Except String TimberlogsClient :=
  if config.batchSize.any (fun b => b < 1 ∨ b.den ≠ 1) then
    .error "batchSize must be a positive integer"
  else if config.flushInterval.any (fun f => f < 0) then
    .error "flushInterval must be non-negative"
  else
    .ok
      { config :=
          { source := config.source
            environment := config.environment
            apiKey := config.apiKey
            version := config.version
            userId := config.userId
            sessionId := config.sessionId
            dataset := config.dataset
            batchSize := config.batchSize.getD 10
            flushInterval := config.flushInterval.getD 5000
            minLevel := config.minLevel.getD .debug
            hasOnError := config.hasOnError
            retry :=
              { maxRetries :=
                  ((config.retry.map (·.maxRetries)).join).getD DEFAULT_RETRY.maxRetries
                initialDelayMs :=
                  ((config.retry.map (·.initialDelayMs)).join).getD DEFAULT_RETRY.initialDelayMs
                maxDelayMs :=
                  ((config.retry.map (·.maxDelayMs)).join).getD DEFAULT_RETRY.maxDelayMs } }
        queue := [] }

/-- Embeds the helper `checkStr` of the validating client: an optional
string longer than `maxLen` yields the thrown message. -/
def checkStr (value : Option String) (name : String) (maxLen : Nat) :
    Option String :=
  match value with
  | none => none
  | some v =>
      if v.length > maxLen then
        some (name ++ " exceeds " ++ toString maxLen ++ " characters: " ++
          toString v.length)
      else none

/-- Embeds the tag loop of `validateLogEntry`: the first tag longer than
50 characters yields the thrown message. -/
def checkTags (tags : List String) : Option String :=
  match tags with
  | [] => none
  | t :: rest =>
      if t.length > 50 then
        some ("tag exceeds 50 characters: " ++ toString t.length)
      else checkTags rest

/-- Embeds `validateLogEntry` of the validating client.  Returns the
message of the first failing check (the thrown error), or `none` when
the entry is valid. -/
def validateLogEntry (entry : LogEntry) : Option String :=
  (if entry.message.length = 0 then some "message must not be empty" else none) <|>
  checkStr (some entry.message) "message" 10000 <|>
  checkStr entry.errorName "errorName" 200 <|>
  checkStr entry.errorStack "errorStack" 10000 <|>
  checkStr entry.userId "userId" 100 <|>
  checkStr entry.sessionId "sessionId" 100 <|>
  checkStr entry.requestId "requestId" 100 <|>
  checkStr entry.flowId "flowId" 50 <|>
  checkStr entry.dataset "dataset" 50 <|>
  (match entry.stepIndex with
   | some s =>
       if s < 0 ∨ s > 1000 then
         some ("stepIndex must be 0-1000, got " ++ toString s)
       else none
   | none => none) <|>
  (match entry.tags with
   | some ts =>
       if ts.length > 20 then
         some ("tags must have at most 20 items, got " ++ toString ts.length)
       else checkTags ts
   | none => none)

/-- Embeds the `logArgs` object literal built inside the validating
client's `log`: entry fields win, `userId`/`sessionId`/`dataset` fall
back to the config's current values. -/
def buildLogArgs (cfg : ClientConfig) (entry : LogEntry) : QueuedRecord :=
  { level := entry.level
    message := entry.message
    source := cfg.source
    environment := cfg.environment
    version := cfg.version
    userId := entry.userId <|> cfg.userId
    sessionId := entry.sessionId <|> cfg.sessionId
    requestId := entry.requestId
    data := entry.data
    errorName := entry.errorName
    errorStack := entry.errorStack
    tags := entry.tags
    flowId := entry.flowId
    stepIndex := entry.stepIndex
    dataset := entry.dataset <|> cfg.dataset
    timestamp := entry.timestamp
    ipAddress := entry.ipAddress
    country := entry.country }

/-- Embeds the `logArgs` literal of `src/client.ts`'s `log`, which stops
at `timestamp` and so leaves `ipAddress`/`country` undefined. -/
def buildLogArgsV1 (cfg : ClientConfig) (entry : LogEntry) : QueuedRecord :=
  { level := entry.level
    message := entry.message
    source := cfg.source
    environment := cfg.environment
    version := cfg.version
    userId := entry.userId <|> cfg.userId
    sessionId := entry.sessionId <|> cfg.sessionId
    requestId := entry.requestId
    data := entry.data
    errorName := entry.errorName
    errorStack := entry.errorStack
    tags := entry.tags
    flowId := entry.flowId
    stepIndex := entry.stepIndex
    dataset := entry.dataset <|> cfg.dataset
    timestamp := entry.timestamp
    ipAddress := none
    country := none }

/-- Where an error report lands: `handleError` forwards to the
configured `onError` callback when there is one, otherwise to
`console.error`. -/
inductive ErrorReport
| toCallback (msg : String)
| toConsole (msg : String)
deriving DecidableEq, Repr

/-- Embeds `TimberlogsClient.handleError` of the client source. -/
def handleError (cfg : ClientConfig) (msg : String) : ErrorReport :=
  if cfg.hasOnError then .toCallback msg else .toConsole msg

/-- Result of `sendHttpBatch`: whether it returned or threw, how many
fetch attempts were made, and the list of delays slept between
attempts (in order). -/
structure SendResult where
  result : Except String Unit
  attempts : Nat
  delays : List Nat
deriving Repr

/-- Embeds the retry loop of `sendHttpBatch`.  `tr` is the transport
oracle giving each attempt's outcome (the thrown message on failure);
`fuel` is the number of loop iterations still allowed, starting at
`maxRetries + 1`.  A failed attempt followed by at least one remaining
iteration sleeps `delay` and continues with
`delay := min (delay * 2) maxDelayMs`; the last attempt's error is the
one thrown. -/
def retryLoop (tr : Nat → Except String Unit) (maxDelayMs : Nat) :
    Nat → Nat → Nat → SendResult
| _, _, 0 => ⟨.error "no attempts", 0, []⟩
| attempt, _, 1 =>
    match tr attempt with
    | .ok _ => ⟨.ok (), 1, []⟩
    | .error e => ⟨.error e, 1, []⟩
| attempt, delay, n + 2 =>
    match tr attempt with
    | .ok _ => ⟨.ok (), 1, []⟩
    | .error _ =>
        let r := retryLoop tr maxDelayMs (attempt + 1)
          (min (delay * 2) maxDelayMs) (n + 1)
        ⟨r.result, r.attempts + 1, delay :: r.delays⟩

/-- Embeds `TimberlogsClient.sendHttpBatch`: throws immediately without
an apiKey, otherwise runs the retry loop for `maxRetries + 1` attempts
starting with `delay = initialDelayMs`. -/
def sendHttpBatch (cfg : ClientConfig) (logs : List QueuedRecord)
    (tr : Nat → Except String Unit) : SendResult :=
  match cfg.apiKey with
  | none => ⟨.error "HTTP transport requires apiKey", 0, []⟩
  | some _ =>
      retryLoop tr cfg.retry.maxDelayMs 0 cfg.retry.initialDelayMs
        (cfg.retry.maxRetries + 1)

/-- Result of one `flush()` call: the client state after it returns,
the batch handed to the transport (if any), and the error reports it
produced.  `flush` has no throw channel: it catches the delivery
failure itself. -/
structure FlushResult where
  client : TimberlogsClient
  batches : List (List QueuedRecord)
  reports : List ErrorReport
deriving Repr

/-- Embeds the validating client's `flush`.  An empty queue returns at
once (no transport call, no await).  Otherwise the queue is snapshotted
and swapped for an empty one before the transport is awaited; `inflight`
is the list of records enqueued while the delivery was in flight, which
land in the fresh live queue.  On delivery failure the error is routed
through `handleError` and the snapshot is unshifted back to the head of
the queue. -/
def flush (c : TimberlogsClient) (tr : Nat → Except String Unit)
    (inflight : List QueuedRecord) : FlushResult :=
  if c.queue.isEmpty then ⟨c, [], []⟩
  else
    let logs := c.queue
    let send := sendHttpBatch c.config logs tr
    match send.result with
    | .ok _ => ⟨{ c with queue := inflight }, [logs], []⟩
    | .error msg =>
        ⟨{ c with queue := logs ++ inflight }, [logs],
          [handleError c.config msg]⟩

/-- Outcome of one `log(entry)` call, before any triggered flush runs:
the updated client, the record appended to the queue (if any), the
validation error thrown to the caller (if any), whether the size
threshold fired a fire-and-forget `flush()`, and whether the call
returned `this`. -/
structure LogOutcome where
  client : TimberlogsClient
  enqueued : Option QueuedRecord
  threw : Option String
  triggered : Bool
  returnedSelf : Bool
deriving Repr

/-- Embeds the validating client's `log`: level filter, then
`validateLogEntry` (thrown to the caller on failure), then append and
size-threshold check.  Both completing paths return `this`. -/
def TimberlogsClient.log (c : TimberlogsClient) (entry : LogEntry) :
    LogOutcome :=
  if ¬ shouldLog c.config entry.level then
    ⟨c, none, none, false, true⟩
  else
    match validateLogEntry entry with
    | some msg => ⟨c, none, some msg, false, false⟩
    | none =>
        let rec_ := buildLogArgs c.config entry
        let q := c.queue ++ [rec_]
        ⟨{ c with queue := q }, some rec_, none,
          (q.length : ℚ) ≥ c.config.batchSize, true⟩

/-- Embeds `log` of `src/client.ts`, which has no entry validation:
every call surviving the level filter enqueues and returns `this`. -/
def TimberlogsClient.logV1 (c : TimberlogsClient) (entry : LogEntry) :
    LogOutcome :=
  if ¬ shouldLog c.config entry.level then
    ⟨c, none, none, false, true⟩
  else
    let rec_ := buildLogArgsV1 c.config entry
    let q := c.queue ++ [rec_]
    ⟨{ c with queue := q }, some rec_, none,
      (q.length : ℚ) ≥ c.config.batchSize, true⟩

/-- Embeds `TimberlogsClient.setUserId`; the Bool records that the
method returns `this`. -/
def TimberlogsClient.setUserId (c : TimberlogsClient)
    (userId : Option String) : TimberlogsClient × Bool :=
  ({ c with config := { c.config with userId := userId } }, true)

/-- Embeds `TimberlogsClient.setSessionId`; the Bool records that the
method returns `this`. -/
def TimberlogsClient.setSessionId (c : TimberlogsClient)
    (sessionId : Option String) : TimberlogsClient × Bool :=
  ({ c with config := { c.config with sessionId := sessionId } }, true)

/-- The `error?: Error | Record<string, unknown>` argument of the
`error` convenience methods: either a JavaScript `Error` object (name,
optional message, optional stack) or an opaque data object. -/
inductive ErrorArg
| exc (name : String) (message : Option String) (stack : Option String)
| obj (data : Option String)
deriving DecidableEq, Repr

/-- The `LogEntry` literal the client's `error` method builds from its
arguments (both branches of the `instanceof Error` test). -/
def errorEntry (message : String) (err : Option ErrorArg)
    (tags : Option (List String)) : LogEntry :=
  match err with
  | some (.exc n m s) =>
      { level := .error, message := message, errorName := some n,
        errorStack := s, data := some (m.getD "Unknown error"),
        tags := tags }
  | some (.obj d) =>
      { level := .error, message := message, data := d, tags := tags }
  | none =>
      { level := .error, message := message, data := none, tags := tags }

/-- Embeds the client convenience method `debug` of `src/client.ts`:
delegates to `log` with a level-stamped entry. -/
def TimberlogsClient.debugV1 (c : TimberlogsClient) (message : String)
    (data : Option String) (tags : Option (List String)) : LogOutcome :=
  c.logV1 { level := .debug, message := message, data := data, tags := tags }

/-- Embeds the client convenience method `info` of `src/client.ts`. -/
def TimberlogsClient.infoV1 (c : TimberlogsClient) (message : String)
    (data : Option String) (tags : Option (List String)) : LogOutcome :=
  c.logV1 { level := .info, message := message, data := data, tags := tags }

/-- Embeds the client convenience method `warn` of `src/client.ts`. -/
def TimberlogsClient.warnV1 (c : TimberlogsClient) (message : String)
    (data : Option String) (tags : Option (List String)) : LogOutcome :=
  c.logV1 { level := .warn, message := message, data := data, tags := tags }

/-- Embeds the client convenience method `error` of `src/client.ts`:
builds the entry from the optional `Error` argument and delegates to
`log`. -/
def TimberlogsClient.errorV1 (c : TimberlogsClient) (message : String)
    (err : Option ErrorArg) (tags : Option (List String)) : LogOutcome :=
  c.logV1 (errorEntry message err tags)

/-- Embeds the `Flow` class state: server-issued id, name, and the
mutable `stepIndex` counter starting at 0. -/
structure TbFlow where
  id : String
  name : String
  stepIndex : Nat := 0
deriving DecidableEq, Repr

/-- Outcome of one flow logging call: updated flow, updated client, the
inner `log` outcome's enqueued record and thrown error, and whether the
flow method returned `this`. -/
structure FlowLogOutcome where
  flow : TbFlow
  client : TimberlogsClient
  enqueued : Option QueuedRecord
  threw : Option String
  returnedSelf : Bool
deriving Repr

/-- Embeds `Flow.logWithLevel` of `src/client.ts` (whose client `log`
does not validate): if the level is filtered out, return `this` without
touching `stepIndex` or the client; otherwise stamp the entry with
`flowId = id` and the pre-increment `stepIndex`, pass it to the
client's `log`, increment the counter, and return `this`. -/
def TbFlow.logWithLevel (f : TbFlow) (c : TimberlogsClient) (level : TbLevel)
    (message : String) (data : Option String)
    (tags : Option (List String)) : FlowLogOutcome :=
  if ¬ shouldLog c.config level then
    ⟨f, c, none, none, true⟩
  else
    let out := c.logV1
      { level := level, message := message, data := data, tags := tags,
        flowId := some f.id, stepIndex := some (f.stepIndex : Int) }
    ⟨{ f with stepIndex := f.stepIndex + 1 }, out.client, out.enqueued,
      out.threw, true⟩

/-- Embeds `Flow.error` of `src/client.ts`: same filter-then-stamp
pattern, with the entry built from the optional `Error` argument. -/
def TbFlow.error (f : TbFlow) (c : TimberlogsClient) (message : String)
    (err : Option ErrorArg) (tags : Option (List String)) :
    FlowLogOutcome :=
  if ¬ shouldLog c.config .error then
    ⟨f, c, none, none, true⟩
  else
    let base := errorEntry message err tags
    let out := c.logV1
      { base with flowId := some f.id, stepIndex := some (f.stepIndex : Int) }
    ⟨{ f with stepIndex := f.stepIndex + 1 }, out.client, out.enqueued,
      out.threw, true⟩

/-- One application-level call on a flow, as dispatched by the `Flow`
convenience methods `debug`/`info`/`warn` (through `logWithLevel`) and
`error`. -/
inductive FlowCall
| leveled (level : TbLevel) (message : String) (data : Option String)
    (tags : Option (List String))
| err (message : String) (e : Option ErrorArg)
    (tags : Option (List String))
deriving Repr

/-- The level a flow call carries (the `error` method always logs at
level error). -/
def FlowCall.level : FlowCall → TbLevel
| .leveled l _ _ _ => l
| .err _ _ _ => .error

/-- Dispatch one flow call to the method embedding it. -/
def flowStep (f : TbFlow) (c : TimberlogsClient) : FlowCall → FlowLogOutcome
| .leveled l m d t => f.logWithLevel c l m d t
| .err m e t => f.error c m e t

/-- Run a sequence of flow calls, collecting every record the client
enqueued, in order. -/
def runFlow (f : TbFlow) (c : TimberlogsClient) :
    List FlowCall → TbFlow × TimberlogsClient × List QueuedRecord
| [] => (f, c, [])
| call :: rest =>
    let out := flowStep f c call
    let r := runFlow out.flow out.client rest
    (r.1, r.2.1, out.enqueued.toList ++ r.2.2)

/-- One operation on the validating client, driving the sequential
trace semantics.  `logOp` carries the transport oracle its
fire-and-forget flush would use; `flushOp` is an explicit `flush()`
call. -/
inductive ClientOp
| logOp (entry : LogEntry) (tr : Nat → Except String Unit)
| setUser (u : Option String)
| setSession (s : Option String)
| flushOp (tr : Nat → Except String Unit)

/-- Observable trace of a run: records enqueued, batches handed to the
transport, error reports, validation errors thrown to callers, and the
number of size-threshold flush triggers. -/
structure Trace where
  enqueued : List QueuedRecord := []
  batches : List (List QueuedRecord) := []
  reports : List ErrorReport := []
  thrown : List String := []
  triggers : Nat := 0
deriving Repr

/-- Concatenation of traces, in chronological order. -/
def Trace.append (t u : Trace) : Trace :=
  ⟨t.enqueued ++ u.enqueued, t.batches ++ u.batches,
    t.reports ++ u.reports, t.thrown ++ u.thrown,
    t.triggers + u.triggers⟩

/-- Execute one operation: a `logOp` runs `log` and, when the size
threshold fired, the triggered `flush` (sequentially, so with no
records arriving in flight). -/
def runOp (c : TimberlogsClient) : ClientOp → TimberlogsClient × Trace
| .logOp entry tr =>
    let out := c.log entry
    if out.triggered then
      let fr := flush out.client tr []
      (fr.client,
        ⟨out.enqueued.toList, fr.batches, fr.reports,
          out.threw.toList, 1⟩)
    else
      (out.client, ⟨out.enqueued.toList, [], [], out.threw.toList, 0⟩)
| .setUser u => ((c.setUserId u).1, {})
| .setSession s => ((c.setSessionId s).1, {})
| .flushOp tr =>
    let fr := flush c tr []
    (fr.client, ⟨[], fr.batches, fr.reports, [], 0⟩)

/-- Run a sequence of client operations, concatenating their traces. -/
def runOps (c : TimberlogsClient) : List ClientOp → TimberlogsClient × Trace
| [] => (c, {})
| op :: rest =>
    let st := runOp c op
    let rst := runOps st.1 rest
    (rst.1, st.2.append rst.2)

/-- Outcome of the flow-registration round trip (the `fetch` against the
flows endpoint): either the parsed `{flowId, name}` body, or a non-ok
response with its body text. -/
inductive RegistrationOutcome
| ok (flowId : String) (name : String)
| httpErr (text : String)
deriving DecidableEq, Repr

/-- Result of `flow(name)`: the client afterwards, the returned `Flow`
or thrown error, and how many registration requests were issued. -/
structure FlowCreateResult where
  client : TimberlogsClient
  result : Except String TbFlow
  registrationCalls : Nat
deriving Repr

/-- Embeds `TimberlogsClient.flow`: without an apiKey it throws before
any request; otherwise one registration request is made (no retry), a
non-ok response throws `Failed to create flow: <text>`, and a good one
yields a fresh `Flow` with `stepIndex = 0`.  The queue is untouched on
every path. -/
def TimberlogsClient.flow (c : TimberlogsClient) (name : String)
    (reg : RegistrationOutcome) : FlowCreateResult :=
  match c.config.apiKey with
  | none => ⟨c, .error "API key required to create flows", 0⟩
  | some _ =>
      match reg with
      | .ok fid fname => ⟨c, .ok ⟨fid, fname, 0⟩, 1⟩
      | .httpErr text => ⟨c, .error ("Failed to create flow: " ++ text), 1⟩

/-!  Theorems.  -/

/-- An `Option` alternative is `none` exactly when both sides are. -/
theorem option_orElse_eq_none {α : Type} (a b : Option α) :
    (a <|> b) = none ↔ a = none ∧ b = none := by
  cases a <;> simp

/-- A concrete keyless client used by witnesses. -/
def sampleClientNoKey : TimberlogsClient :=
  { config :=
      { source := "s", environment := .development, batchSize := 10,
        flushInterval := 5000, minLevel := .debug,
        retry := DEFAULT_RETRY } }

/-- A concrete client with an apiKey and an `onError` callback, used by
witnesses. -/
def sampleClientKeyed : TimberlogsClient :=
  { config :=
      { source := "s", environment := .development, apiKey := some "k",
        batchSize := 10, flushInterval := 5000, minLevel := .debug,
        hasOnError := true, retry := DEFAULT_RETRY } }

/-- C6: the constructor fails fast with a ConfigurationError — creating
no client value — when `batchSize` is supplied and is not a positive
integer, or when `flushInterval` is supplied and is negative; with both
omitted it succeeds with the defaults `batchSize = 10`,
`flushInterval = 5000`, `minLevel = debug` and an empty queue. -/
theorem constructor_fails_fast_and_defaults (cfg : TimberlogsConfig) :
    (∀ b : ℚ, cfg.batchSize = some b → (b < 1 ∨ b.den ≠ 1) →
      TimberlogsClient.create cfg = .error "batchSize must be a positive integer") ∧
    (∀ f : ℚ, cfg.flushInterval = some f → f < 0 →
      ∃ m, TimberlogsClient.create cfg = .error m) ∧
    (cfg.batchSize = none → cfg.flushInterval = none → cfg.minLevel = none →
      ∃ c, TimberlogsClient.create cfg = .ok c ∧
        c.config.batchSize = 10 ∧ c.config.flushInterval = 5000 ∧
        c.config.minLevel = .debug ∧ c.queue = []) := by
  refine ⟨?_, ?_, ?_⟩
  · intro b hb hbad
    unfold TimberlogsClient.create
    split
    · rfl
    · rename_i hcond
      rw [hb] at hcond
      simp at hcond
      exact hbad.elim (fun h => absurd hcond.1 (not_le.mpr h))
        (fun h => absurd hcond.2 h)
  · intro f hf hneg
    unfold TimberlogsClient.create
    split
    · exact ⟨_, rfl⟩
    · split
      · exact ⟨_, rfl⟩
      · rename_i hcond
        rw [hf] at hcond
        simp at hcond
        exact absurd hneg (by simpa using hcond)
  · intro h1 h2 h3
    unfold TimberlogsClient.create
    split
    · rename_i hcond
      rw [h1] at hcond
      simp at hcond
    · split
      · rename_i hcond
        rw [h2] at hcond
        simp at hcond
      · exact ⟨_, rfl, by simp [h1], by simp [h2], by simp [h3], rfl⟩

/-- Witness for C6 at concrete configurations: a zero batch size and a
negative flush interval each fail, and the bare config succeeds with
the documented defaults. -/
theorem constructor_fails_fast_and_defaults_witness :
    TimberlogsClient.create
      { source := "s", environment := .development, batchSize := some 0 } =
      .error "batchSize must be a positive integer" ∧
    (∃ m, TimberlogsClient.create
      { source := "s", environment := .development,
        flushInterval := some (-5) } = .error m) ∧
    (∃ c, TimberlogsClient.create
      { source := "s", environment := .development } = .ok c ∧
      c.config.batchSize = 10 ∧ c.config.flushInterval = 5000 ∧
      c.config.minLevel = .debug ∧ c.queue = []) :=
  ⟨(constructor_fails_fast_and_defaults _).1 0 rfl (by norm_num),
   (constructor_fails_fast_and_defaults _).2.1 (-5) rfl (by norm_num),
   (constructor_fails_fast_and_defaults _).2.2 rfl rfl rfl⟩

/-- C8: `flow(name)` with no apiKey fails immediately with the
descriptive error, issues no registration request, and leaves the
client (hence the queue) unchanged; with an apiKey, a failing
registration propagates the server's text in a single error after
exactly one request, again leaving the client unchanged. -/
theorem flow_fails_fast_no_side_effect (c : TimberlogsClient)
    (name : String) (reg : RegistrationOutcome) :
    (c.config.apiKey = none →
      (c.flow name reg).result = .error "API key required to create flows" ∧
      (c.flow name reg).registrationCalls = 0 ∧
      (c.flow name reg).client = c) ∧
    (∀ k text, c.config.apiKey = some k → reg = .httpErr text →
      (c.flow name reg).result = .error ("Failed to create flow: " ++ text) ∧
      (c.flow name reg).registrationCalls = 1 ∧
      (c.flow name reg).client = c) := by
  constructor
  · intro h
    simp [TimberlogsClient.flow, h]
  · intro k text hk hr
    simp [TimberlogsClient.flow, hk, hr]

/-- Witness for C8: a keyless client's `flow("checkout")` fails with the
descriptive error and an empty queue stays empty; a keyed client whose
registration returns an error body gets that text back. -/
theorem flow_fails_fast_no_side_effect_witness :
    (sampleClientNoKey.flow "checkout" (.ok "id" "checkout")).result =
      .error "API key required to create flows" ∧
    (sampleClientNoKey.flow "checkout" (.ok "id" "checkout")).client.queue = [] ∧
    (sampleClientKeyed.flow "checkout" (.httpErr "bad key")).result =
      .error "Failed to create flow: bad key" := by
  refine ⟨((flow_fails_fast_no_side_effect sampleClientNoKey "checkout" _).1
      (by rfl)).1,
    ?_, ((flow_fails_fast_no_side_effect sampleClientKeyed "checkout" _).2 "k"
      "bad key" (by rfl) rfl).1⟩
  rw [((flow_fails_fast_no_side_effect sampleClientNoKey "checkout"
    (.ok "id" "checkout")).1 (by rfl)).2.2]
  rfl

/-- A `log` call whose entry passes the filter and validation appends
exactly `buildLogArgs` of the current config and throws nothing. -/
theorem log_enqueued_of_valid (c : TimberlogsClient) (e : LogEntry)
    (hpass : shouldLog c.config e.level = true)
    (hvalid : validateLogEntry e = none) :
    (c.log e).enqueued = some (buildLogArgs c.config e) ∧
    (c.log e).threw = none ∧
    (c.log e).client.queue = c.queue ++ [buildLogArgs c.config e] ∧
    (c.log e).client.config = c.config := by
  unfold TimberlogsClient.log
  rw [hvalid]
  simp [hpass]

/-- C9: a record enqueued by `log` takes its `userId`, `sessionId` and
`dataset` from the entry when present, otherwise from the configured
values as they stand at the moment of the call — including values set
by `setUserId`/`setSessionId` after construction — and the entry value
always wins over the configured default. -/
theorem log_identity_fallback (c : TimberlogsClient) (e : LogEntry)
    (hpass : shouldLog c.config e.level = true)
    (hvalid : validateLogEntry e = none) :
    ((c.log e).enqueued.map (·.userId) =
      some (e.userId <|> c.config.userId)) ∧
    ((c.log e).enqueued.map (·.sessionId) =
      some (e.sessionId <|> c.config.sessionId)) ∧
    ((c.log e).enqueued.map (·.dataset) =
      some (e.dataset <|> c.config.dataset)) ∧
    (∀ v, (((c.setUserId v).1.log e).enqueued.map (·.userId)) =
      some (e.userId <|> v)) ∧
    (∀ v, (((c.setSessionId v).1.log e).enqueued.map (·.sessionId)) =
      some (e.sessionId <|> v)) ∧
    (∀ u, e.userId = some u →
      (c.log e).enqueued.map (·.userId) = some (some u)) ∧
    (e.userId = none →
      (c.log e).enqueued.map (·.userId) = some c.config.userId) := by
  have hbase := (log_enqueued_of_valid c e hpass hvalid).1
  refine ⟨?_, ?_, ?_, ?_, ?_, ?_, ?_⟩
  · rw [hbase]; rfl
  · rw [hbase]; rfl
  · rw [hbase]; rfl
  · intro v
    have hp : shouldLog (c.setUserId v).1.config e.level = true := hpass
    rw [(log_enqueued_of_valid _ e hp hvalid).1]
    rfl
  · intro v
    have hp : shouldLog (c.setSessionId v).1.config e.level = true := hpass
    rw [(log_enqueued_of_valid _ e hp hvalid).1]
    rfl
  · intro u hu
    rw [hbase]
    simp [buildLogArgs, hu]
  · intro hu
    rw [hbase]
    simp [buildLogArgs, hu]

/-- Witness for C9: a concrete entry with its own `userId` but no
`sessionId`, logged on a keyed client after `setSessionId`, lands with
the entry's `userId` and the freshly set session id. -/
theorem log_identity_fallback_witness :
    (((sampleClientKeyed.setSessionId (some "sess")).1.log
        { level := .info, message := "m", userId := some "u" }).enqueued.map
      (·.sessionId)) = some (some "sess") ∧
    ((sampleClientKeyed.log
        { level := .info, message := "m", userId := some "u" }).enqueued.map
      (·.userId)) = some (some "u") := by
  constructor
  · exact (log_identity_fallback sampleClientKeyed
      { level := .info, message := "m", userId := some "u" }
      (by decide) (by decide)).2.2.2.2.1 (some "sess")
  · exact (log_identity_fallback sampleClientKeyed
      { level := .info, message := "m", userId := some "u" }
      (by decide) (by decide)).2.2.2.2.2.1 "u" rfl

/-- C10: every logging method and identity setter of the `src/client.ts`
client returns `this` — including calls filtered out by `minLevel` —
and every `Flow` logging method returns the flow itself, so chained
calls all operate on one shared state. -/
theorem methods_return_self :
    (∀ (c : TimberlogsClient) (e : LogEntry),
      (c.logV1 e).returnedSelf = true) ∧
    (∀ (c : TimberlogsClient) m d t,
      (c.debugV1 m d t).returnedSelf = true) ∧
    (∀ (c : TimberlogsClient) m d t,
      (c.infoV1 m d t).returnedSelf = true) ∧
    (∀ (c : TimberlogsClient) m d t,
      (c.warnV1 m d t).returnedSelf = true) ∧
    (∀ (c : TimberlogsClient) m er t,
      (c.errorV1 m er t).returnedSelf = true) ∧
    (∀ (c : TimberlogsClient) u, (c.setUserId u).2 = true) ∧
    (∀ (c : TimberlogsClient) s, (c.setSessionId s).2 = true) ∧
    (∀ (f : TbFlow) (c : TimberlogsClient) l m d t,
      (f.logWithLevel c l m d t).returnedSelf = true) ∧
    (∀ (f : TbFlow) (c : TimberlogsClient) m er t,
      (f.error c m er t).returnedSelf = true) := by
  refine ⟨?_, ?_, ?_, ?_, ?_, ?_, ?_, ?_, ?_⟩ <;>
    intros <;>
    simp [TimberlogsClient.logV1, TimberlogsClient.debugV1,
      TimberlogsClient.infoV1, TimberlogsClient.warnV1,
      TimberlogsClient.errorV1, TimberlogsClient.setUserId,
      TimberlogsClient.setSessionId, TbFlow.logWithLevel, TbFlow.error] <;>
    split <;> simp

/-- The claim's enumeration of malformed entries, written as a direct
predicate for comparison with `validateLogEntry`: message empty or over
10,000 characters, errorName over 200, errorStack over 10,000,
userId/sessionId/requestId over 100, flowId/dataset over 50, stepIndex
present and outside [0, 1000], more than 20 tags, or any tag over 50
characters. -/
def malformedSpec (e : LogEntry) : Bool :=
  e.message.length = 0 || e.message.length > 10000 ||
  e.errorName.any (fun s => s.length > 200) ||
  e.errorStack.any (fun s => s.length > 10000) ||
  e.userId.any (fun s => s.length > 100) ||
  e.sessionId.any (fun s => s.length > 100) ||
  e.requestId.any (fun s => s.length > 100) ||
  e.flowId.any (fun s => s.length > 50) ||
  e.dataset.any (fun s => s.length > 50) ||
  e.stepIndex.any (fun s => s < 0 || s > 1000) ||
  e.tags.any (fun ts => ts.length > 20 || ts.any (fun t => t.length > 50))

/-- A `checkStr` call succeeds exactly when the optional string is
absent or within the bound. -/
theorem checkStr_eq_none (o : Option String) (n : String) (m : Nat) :
    checkStr o n m = none ↔ o.any (fun s => s.length > m) = false := by
  cases o with
  | none => simp [checkStr]
  | some v =>
      simp only [checkStr, Option.any_some]
      split
      · rename_i h
        simp [h]
      · rename_i h
        simp [h]

/-- The tag loop succeeds exactly when every tag is within the bound. -/
theorem checkTags_eq_none (ts : List String) :
    checkTags ts = none ↔ ts.any (fun t => t.length > 50) = false := by
  induction ts with
  | nil => simp [checkTags]
  | cons t rest ih =>
      simp only [checkTags, List.any_cons]
      split
      · rename_i h
        simp [h]
      · rename_i h
        simp [h, ih]

/-- The validator accepts exactly the entries the claim calls
well-formed. -/
theorem validate_none_iff (e : LogEntry) :
    validateLogEntry e = none ↔ malformedSpec e = false := by
  cases hsi : e.stepIndex <;> cases htg : e.tags <;>
    simp [validateLogEntry, malformedSpec, option_orElse_eq_none,
      checkStr_eq_none, checkTags_eq_none, hsi, htg] <;>
    (try (split <;> simp_all [checkTags_eq_none])) <;> (try tauto)

/-- C5: an entry that survives level filtering but is malformed in any
of the listed ways makes `log` fail synchronously with the validation
error; nothing is enqueued, the client state — in particular the queue
length — is unchanged. -/
theorem log_rejects_malformed (c : TimberlogsClient) (e : LogEntry)
    (hpass : shouldLog c.config e.level = true)
    (hbad : malformedSpec e = true) :
    (c.log e).threw.isSome = true ∧ (c.log e).client = c ∧
    (c.log e).enqueued = none ∧
    (c.log e).client.queue.length = c.queue.length := by
  have hv : validateLogEntry e ≠ none := by
    intro h
    rw [validate_none_iff] at h
    rw [h] at hbad
    cases hbad
  obtain ⟨msg, hmsg⟩ := Option.ne_none_iff_exists'.mp hv
  unfold TimberlogsClient.log
  rw [hmsg]
  simp [hpass]

/-- Witness for C5: an empty message on a concrete keyed client is
thrown back, leaving the (empty) queue empty. -/
theorem log_rejects_malformed_witness :
    (sampleClientKeyed.log { level := .info, message := "" }).threw.isSome
      = true ∧
    (sampleClientKeyed.log { level := .info, message := "" }).client =
      sampleClientKeyed ∧
    (sampleClientKeyed.log
      { level := .info, message := "" }).enqueued = none ∧
    (sampleClientKeyed.log
      { level := .info, message := "" }).client.queue.length =
      sampleClientKeyed.queue.length :=
  log_rejects_malformed sampleClientKeyed { level := .info, message := "" }
    (by decide) (by decide)

/-- Closed form of the delay variable along the retry loop: the
sequence starting at `delay` under `delay := min (delay * 2) M`. -/
def iterDelays (M : Nat) : Nat → Nat → List Nat
| _, 0 => []
| delay, n + 1 => delay :: iterDelays M (min (delay * 2) M) n

/-- With an always-failing transport the loop makes exactly `fuel`
attempts, throws the last attempt's error, and sleeps the iterated
delay sequence. -/
theorem retryLoop_allfail (tr : Nat → Except String Unit)
    (ms : Nat → String) (hfail : ∀ n, tr n = .error (ms n)) (M : Nat) :
    ∀ fuel, 1 ≤ fuel → ∀ attempt delay,
      (retryLoop tr M attempt delay fuel).attempts = fuel ∧
      (retryLoop tr M attempt delay fuel).result =
        .error (ms (attempt + fuel - 1)) ∧
      (retryLoop tr M attempt delay fuel).delays =
        iterDelays M delay (fuel - 1) := by
  intro fuel
  induction fuel with
  | zero => intro h; exact absurd h (by omega)
  | succ n ih =>
      intro _ attempt delay
      cases n with
      | zero =>
          simp [retryLoop, hfail attempt, iterDelays]
      | succ m =>
          have h := ih (by omega) (attempt + 1) (min (delay * 2) M)
          have hstep : retryLoop tr M attempt delay (m + 1 + 1) =
              ⟨(retryLoop tr M (attempt + 1) (min (delay * 2) M)
                  (m + 1)).result,
               (retryLoop tr M (attempt + 1) (min (delay * 2) M)
                  (m + 1)).attempts + 1,
               delay :: (retryLoop tr M (attempt + 1) (min (delay * 2) M)
                  (m + 1)).delays⟩ := by
            simp [retryLoop, hfail attempt]
          rw [hstep]
          refine ⟨by simp [h.1], ?_, ?_⟩
          · show (retryLoop tr M (attempt + 1) (min (delay * 2) M)
              (m + 1)).result = .error (ms (attempt + (m + 1 + 1) - 1))
            have harith : attempt + (m + 1 + 1) - 1 =
                attempt + 1 + (m + 1) - 1 := by omega
            rw [harith, h.2.1]
          · show delay :: (retryLoop tr M (attempt + 1) (min (delay * 2) M)
              (m + 1)).delays = iterDelays M delay (m + 1 + 1 - 1)
            rw [h.2.2]
            simp [iterDelays]

/-- Doubling then capping commutes with the claimed closed form. -/
theorem min_double_pow (d M i : Nat) :
    min (min (d * 2) M * 2 ^ i) M = min (d * 2 * 2 ^ i) M := by
  rcases le_total (d * 2) M with h | h
  · rw [min_eq_left h]
  · rw [min_eq_right h]
    have h1 : M ≤ M * 2 ^ i :=
      Nat.le_mul_of_pos_right M (pow_pos (by omega) i)
    have h2 : M ≤ d * 2 * 2 ^ i :=
      le_trans h (Nat.le_mul_of_pos_right _ (pow_pos (by omega) i))
    rw [min_eq_right h1, min_eq_right h2]

/-- When the starting delay is within the cap, the iterated delays are
exactly the spec formula `min (d * 2 ^ i) M`. -/
theorem iterDelays_eq_map (M : Nat) : ∀ (n d : Nat), d ≤ M →
    iterDelays M d n = (List.range n).map (fun i => min (d * 2 ^ i) M) := by
  intro n
  induction n with
  | zero => intro d _; simp [iterDelays]
  | succ k ih =>
      intro d hd
      rw [iterDelays, ih (min (d * 2) M) (min_le_right _ _),
        List.range_succ_eq_map]
      simp only [List.map_cons, List.map_map]
      congr 1
      · rw [pow_zero, Nat.mul_one, min_eq_left hd]
      · apply List.map_congr_left
        intro i _
        simp only [Function.comp_apply]
        rw [min_double_pow, pow_succ]
        congr 1
        ring

/-- With an apiKey and an always-failing transport, `sendHttpBatch`
makes `maxRetries + 1` attempts, throws the final error, and sleeps the
iterated delays. -/
theorem sendHttpBatch_allfail (cfg : ClientConfig)
    (logs : List QueuedRecord) (tr : Nat → Except String Unit)
    (ms : Nat → String) (hkey : cfg.apiKey.isSome = true)
    (hfail : ∀ n, tr n = .error (ms n)) :
    (sendHttpBatch cfg logs tr).attempts = cfg.retry.maxRetries + 1 ∧
    (sendHttpBatch cfg logs tr).result = .error (ms cfg.retry.maxRetries) ∧
    (sendHttpBatch cfg logs tr).delays =
      iterDelays cfg.retry.maxDelayMs cfg.retry.initialDelayMs
        cfg.retry.maxRetries := by
  obtain ⟨k, hk⟩ := Option.isSome_iff_exists.mp hkey
  unfold sendHttpBatch
  rw [hk]
  have h := retryLoop_allfail tr ms hfail cfg.retry.maxDelayMs
    (cfg.retry.maxRetries + 1) (by omega) 0 cfg.retry.initialDelayMs
  simpa using h

/-- C3 (amended): for a batch whose transport fails on every attempt,
delivery is attempted exactly `maxRetries + 1` times and no delay
follows the final attempt; provided `initialDelayMs ≤ maxDelayMs`, the
delay before retry n (1-indexed) is
`min (initialDelayMs * 2 ^ (n - 1)) maxDelayMs`; with the default retry
policy the delays are exactly 1000, 2000, 4000. -/
theorem retry_schedule (cfg : ClientConfig) (logs : List QueuedRecord)
    (tr : Nat → Except String Unit) (ms : Nat → String)
    (hkey : cfg.apiKey.isSome = true)
    (hfail : ∀ n, tr n = .error (ms n))
    (hle : cfg.retry.initialDelayMs ≤ cfg.retry.maxDelayMs) :
    (sendHttpBatch cfg logs tr).attempts = cfg.retry.maxRetries + 1 ∧
    (sendHttpBatch cfg logs tr).delays =
      (List.range cfg.retry.maxRetries).map
        (fun i => min (cfg.retry.initialDelayMs * 2 ^ i)
          cfg.retry.maxDelayMs) ∧
    (sendHttpBatch cfg logs tr).delays.length = cfg.retry.maxRetries ∧
    (cfg.retry = DEFAULT_RETRY →
      (sendHttpBatch cfg logs tr).delays = [1000, 2000, 4000]) := by
  have h := sendHttpBatch_allfail cfg logs tr ms hkey hfail
  have hd : (sendHttpBatch cfg logs tr).delays =
      (List.range cfg.retry.maxRetries).map
        (fun i => min (cfg.retry.initialDelayMs * 2 ^ i)
          cfg.retry.maxDelayMs) := by
    rw [h.2.2, iterDelays_eq_map _ _ _ hle]
  refine ⟨h.1, hd, by simp [hd], ?_⟩
  intro hdef
  rw [hd, hdef]
  decide

/-- A transport that fails every attempt with an HTTP 500 body. -/
def failTransport : Nat → Except String Unit :=
  fun _ => .error "HTTP 500: boom"

/-- The error messages of `failTransport`. -/
def failMsgs : Nat → String := fun _ => "HTTP 500: boom"

/-- A concrete queued record used by witnesses. -/
def recA : QueuedRecord :=
  { level := .info, message := "a", source := "s",
    environment := .development }

/-- A second concrete queued record used by witnesses. -/
def recB : QueuedRecord :=
  { level := .warn, message := "b", source := "s",
    environment := .development }

/-- Witness for C3 (amended) at the default retry policy: four
attempts, delays 1000, 2000, 4000. -/
theorem retry_schedule_witness :
    (sendHttpBatch sampleClientKeyed.config [recA] failTransport).attempts
      = 4 ∧
    (sendHttpBatch sampleClientKeyed.config [recA] failTransport).delays
      = [1000, 2000, 4000] := by
  have h := retry_schedule sampleClientKeyed.config [recA] failTransport
    failMsgs (by rfl) (fun n => rfl) (by decide)
  exact ⟨h.1, h.2.2.2 rfl⟩

/-- A retry policy whose initial delay exceeds the cap, exercising the
uncapped first delay. -/
def cexRetryCfg : ClientConfig :=
  { source := "s", environment := .production, apiKey := some "k",
    batchSize := 10, flushInterval := 5000, minLevel := .debug,
    retry :=
      { maxRetries := 1, initialDelayMs := 40000, maxDelayMs := 30000 } }

/-- Counterexample to C3 as stated: with `initialDelayMs = 40000`,
`maxDelayMs = 30000`, `maxRetries = 1` and an always-failing transport,
the single inter-attempt delay is 40000, whereas the claimed formula
`min (initialDelayMs * 2 ^ (n-1)) maxDelayMs` gives 30000 — the code
never caps the first delay. -/
theorem retry_schedule_counterexample :
    (sendHttpBatch cexRetryCfg [recA] failTransport).delays = [40000] ∧
    min (40000 * 2 ^ (1 - 1)) 30000 = 30000 ∧ (40000 : Nat) ≠ 30000 := by
  decide

/-- C1: when a `flush()` of a non-empty queue exhausts all retries, the
whole snapshot is re-inserted at the head of the live queue in its
original order, ahead of everything enqueued while the delivery was in
flight; the failure goes to the configured error callback and is not
thrown (the `flush` embedding has no throw channel). -/
theorem flush_requeues_on_failure (c : TimberlogsClient)
    (tr : Nat → Except String Unit) (ms : Nat → String)
    (inflight : List QueuedRecord)
    (hq : c.queue ≠ [])
    (hkey : c.config.apiKey.isSome = true)
    (hfail : ∀ n, tr n = .error (ms n))
    (hcb : c.config.hasOnError = true) :
    (flush c tr inflight).client.queue = c.queue ++ inflight ∧
    (flush c tr inflight).reports =
      [.toCallback (ms c.config.retry.maxRetries)] ∧
    (flush c tr inflight).batches = [c.queue] := by
  have hsend := sendHttpBatch_allfail c.config c.queue tr ms hkey hfail
  have hne : c.queue.isEmpty = false := by
    simpa [List.isEmpty_iff] using hq
  unfold flush
  rw [hne]
  simp [hsend.2.1, handleError, hcb]

/-- Witness for C1: a one-record queue, one record arriving in flight,
always-failing transport — the queue afterwards is the old record then
the in-flight one, and the callback got the final HTTP error. -/
theorem flush_requeues_on_failure_witness :
    (flush { config := sampleClientKeyed.config, queue := [recA] }
      failTransport [recB]).client.queue = [recA, recB] ∧
    (flush { config := sampleClientKeyed.config, queue := [recA] }
      failTransport [recB]).reports = [.toCallback "HTTP 500: boom"] ∧
    (flush { config := sampleClientKeyed.config, queue := [recA] }
      failTransport [recB]).batches = [[recA]] :=
  flush_requeues_on_failure
    { config := sampleClientKeyed.config, queue := [recA] }
    failTransport failMsgs [recB] (by decide) (by rfl) (fun n => rfl)
    (by rfl)

/-- The `error` convenience entry always carries level error. -/
theorem errorEntry_level (m : String) (e : Option ErrorArg)
    (t : Option (List String)) : (errorEntry m e t).level = .error := by
  rcases e with _ | a
  · rfl
  · cases a <;> rfl

/-- The entry a flow call hands to the client's `log`, stamped with the
flow id and the pre-increment step counter. -/
def flowEntry (f : TbFlow) : FlowCall → LogEntry
| .leveled l m d t =>
    { level := l, message := m, data := d, tags := t,
      flowId := some f.id, stepIndex := some (f.stepIndex : Int) }
| .err m e t =>
    { errorEntry m e t with
        flowId := some f.id, stepIndex := some (f.stepIndex : Int) }

/-- The record a surviving flow call enqueues keeps the stamped step
index. -/
theorem flowEntry_record_stepIndex (cfg : ClientConfig) (f : TbFlow)
    (call : FlowCall) :
    (buildLogArgsV1 cfg (flowEntry f call)).stepIndex =
      some (f.stepIndex : Int) := by
  cases call <;> rfl

/-- The record a surviving flow call enqueues keeps the stamped flow
id. -/
theorem flowEntry_record_flowId (cfg : ClientConfig) (f : TbFlow)
    (call : FlowCall) :
    (buildLogArgsV1 cfg (flowEntry f call)).flowId = some f.id := by
  cases call <;> rfl

/-- A flow call whose level is filtered out leaves the flow counter and
the client untouched, enqueues nothing, and returns the flow. -/
theorem flowStep_filtered (f : TbFlow) (c : TimberlogsClient)
    (call : FlowCall) (hp : shouldLog c.config call.level = false) :
    flowStep f c call = ⟨f, c, none, none, true⟩ := by
  cases call with
  | leveled l m d t =>
      simp only [FlowCall.level] at hp
      simp [flowStep, TbFlow.logWithLevel, hp]
  | err m e t =>
      simp only [FlowCall.level] at hp
      simp [flowStep, TbFlow.error, hp]

/-- A flow call whose level survives increments the counter, stamps the
entry, and appends the built record to the client's queue. -/
theorem flowStep_pass (f : TbFlow) (c : TimberlogsClient)
    (call : FlowCall) (hp : shouldLog c.config call.level = true) :
    flowStep f c call =
      ⟨⟨f.id, f.name, f.stepIndex + 1⟩,
       ⟨c.config, c.queue ++ [buildLogArgsV1 c.config (flowEntry f call)]⟩,
       some (buildLogArgsV1 c.config (flowEntry f call)), none, true⟩ := by
  cases call with
  | leveled l m d t =>
      simp only [FlowCall.level] at hp
      simp [flowStep, TbFlow.logWithLevel, hp, TimberlogsClient.logV1,
        flowEntry]
  | err m e t =>
      simp only [FlowCall.level] at hp
      have hl := errorEntry_level m e t
      simp [flowStep, TbFlow.error, hp, TimberlogsClient.logV1, flowEntry,
        hl]

/-- Across any sequence of flow calls the collected enqueued records
carry step indices counting consecutively from the flow's counter over
exactly the surviving calls, all stamped with the flow's id; the
counter advances by the number of survivors. -/
theorem runFlow_steps (calls : List FlowCall) :
    ∀ (f : TbFlow) (c : TimberlogsClient),
    ((runFlow f c calls).2.2.map (·.stepIndex) =
      (List.range' f.stepIndex
        ((calls.filter (fun call => shouldLog c.config call.level)).length)).map
        (fun n : Nat => some (n : Int))) ∧
    (∀ r ∈ (runFlow f c calls).2.2, r.flowId = some f.id) ∧
    ((runFlow f c calls).1.stepIndex = f.stepIndex +
      (calls.filter (fun call => shouldLog c.config call.level)).length) ∧
    (runFlow f c calls).1.id = f.id := by
  induction calls with
  | nil => intro f c; simp [runFlow]
  | cons call rest ih =>
      intro f c
      by_cases hp : shouldLog c.config call.level = true
      · obtain ⟨ih1, ih2, ih3, ih4⟩ := ih ⟨f.id, f.name, f.stepIndex + 1⟩
          ⟨c.config, c.queue ++ [buildLogArgsV1 c.config (flowEntry f call)]⟩
        have hflt : (List.filter (fun call => shouldLog c.config call.level)
            (call :: rest)).length =
            (List.filter (fun call => shouldLog c.config call.level)
              rest).length + 1 := by
          simp [List.filter_cons, hp]
        refine ⟨?_, ?_, ?_, ?_⟩
        · simp only [runFlow, flowStep_pass f c call hp, Option.toList_some,
            List.cons_append, List.nil_append, List.map_cons,
            flowEntry_record_stepIndex]
          rw [hflt, List.range'_succ, List.map_cons]
          exact congrArg _ ih1
        · intro r hr
          simp only [runFlow, flowStep_pass f c call hp, Option.toList_some,
            List.cons_append, List.nil_append, List.mem_cons] at hr
          rcases hr with hr | hr
          · rw [hr]; exact flowEntry_record_flowId c.config f call
          · exact ih2 r hr
        · simp only [runFlow, flowStep_pass f c call hp]
          rw [hflt, ih3]
          show f.stepIndex + 1 +
              (List.filter (fun call => shouldLog c.config call.level)
                rest).length =
            f.stepIndex +
              ((List.filter (fun call => shouldLog c.config call.level)
                rest).length + 1)
          omega
        · simp only [runFlow, flowStep_pass f c call hp]
          exact ih4
      · replace hp : shouldLog c.config call.level = false := by
          simpa using hp
        have hflt : List.filter (fun call => shouldLog c.config call.level)
            (call :: rest) =
            List.filter (fun call => shouldLog c.config call.level) rest := by
          simp [List.filter_cons, hp]
        obtain ⟨ih1, ih2, ih3, ih4⟩ := ih f c
        refine ⟨?_, ?_, ?_, ?_⟩
        · simp only [runFlow, flowStep_filtered f c call hp,
            Option.toList_none, List.nil_append]
          rw [hflt]
          exact ih1
        · intro r hr
          simp only [runFlow, flowStep_filtered f c call hp,
            Option.toList_none, List.nil_append] at hr
          exact ih2 r hr
        · simp only [runFlow, flowStep_filtered f c call hp]
          rw [hflt]
          exact ih3
        · simp only [runFlow, flowStep_filtered f c call hp]
          exact ih4

/-- C2: starting from a fresh flow, the records enqueued through the
flow carry step indices exactly 0, 1, 2, … over the calls whose level
passes the filter, each stamped with the flow's id; the counter ends at
the number of survivors, and a filtered-out call leaves the flow and the
client untouched and enqueues nothing. -/
theorem flow_step_indices (f : TbFlow) (c : TimberlogsClient)
    (calls : List FlowCall) (h0 : f.stepIndex = 0) :
    ((runFlow f c calls).2.2.map (·.stepIndex) =
      (List.range
        ((calls.filter (fun call => shouldLog c.config call.level)).length)).map
        (fun n : Nat => some (n : Int))) ∧
    (∀ r ∈ (runFlow f c calls).2.2, r.flowId = some f.id) ∧
    ((runFlow f c calls).1.stepIndex =
      (calls.filter (fun call => shouldLog c.config call.level)).length) ∧
    (∀ call, shouldLog c.config call.level = false →
      flowStep f c call = ⟨f, c, none, none, true⟩) := by
  obtain ⟨h1, h2, h3, h4⟩ := runFlow_steps calls f c
  refine ⟨?_, h2, ?_, ?_⟩
  · rw [h1, h0, List.range_eq_range']
  · rw [h3, h0, Nat.zero_add]
  · intro call hpf
    exact flowStep_filtered f c call hpf

/-- A concrete flow used by witnesses. -/
def sampleFlow : TbFlow := { id := "fl", name := "checkout" }

/-- A concrete client with `minLevel = warn`, used to exercise the
level filter in witnesses. -/
def sampleClientWarn : TimberlogsClient :=
  { config :=
      { source := "s", environment := .development, batchSize := 10,
        flushInterval := 5000, minLevel := .warn,
        retry := DEFAULT_RETRY } }

/-- Witness for C2: info is filtered under `minLevel = warn`, so a
skip-warn-error call sequence stamps step indices 0 and 1 and leaves
the counter at 2. -/
theorem flow_step_indices_witness :
    ((runFlow sampleFlow sampleClientWarn
      [.leveled .info "skip" none none, .leveled .warn "w" none none,
        .err "boom" none none]).2.2.map (·.stepIndex)) =
      [some (0 : Int), some 1] ∧
    (runFlow sampleFlow sampleClientWarn
      [.leveled .info "skip" none none, .leveled .warn "w" none none,
        .err "boom" none none]).1.stepIndex = 2 := by
  have h := flow_step_indices sampleFlow sampleClientWarn
    [.leveled .info "skip" none none, .leveled .warn "w" none none,
      .err "boom" none none] rfl
  constructor
  · rw [h.1]
    decide
  · rw [h.2.2.1]
    decide

/-- Neither branch of `log` changes the client's config. -/
theorem log_config (c : TimberlogsClient) (e : LogEntry) :
    (c.log e).client.config = c.config := by
  unfold TimberlogsClient.log
  split
  · rfl
  · split <;> rfl

/-- Neither branch of `flush` changes the client's config. -/
theorem flush_config (c : TimberlogsClient) (tr : Nat → Except String Unit)
    (inflight : List QueuedRecord) :
    (flush c tr inflight).client.config = c.config := by
  unfold flush
  split
  · rfl
  · cases hres : (sendHttpBatch c.config c.queue tr).result <;>
      simp [hres]

/-- No operation changes the configured minimum level. -/
theorem runOp_minLevel (c : TimberlogsClient) (op : ClientOp) :
    (runOp c op).1.config.minLevel = c.config.minLevel := by
  cases op with
  | logOp e tr =>
      simp only [runOp]
      split
      · rw [flush_config, log_config]
      · rw [log_config]
  | setUser u => rfl
  | setSession s => rfl
  | flushOp tr =>
      simp only [runOp]
      rw [flush_config]

/-- Every record of the queue passes the level filter for `ml`. -/
def QueueOK (ml : TbLevel) (q : List QueuedRecord) : Prop :=
  ∀ r ∈ q, LOG_LEVEL_PRIORITY ml ≤ LOG_LEVEL_PRIORITY r.level

/-- A flush preserves the queue filter invariant and only hands
invariant-satisfying batches to the transport. -/
theorem flush_invariant (ml : TbLevel) (c : TimberlogsClient)
    (tr : Nat → Except String Unit) (inflight : List QueuedRecord)
    (hq : QueueOK ml c.queue) (hin : QueueOK ml inflight) :
    QueueOK ml (flush c tr inflight).client.queue ∧
    ∀ b ∈ (flush c tr inflight).batches, QueueOK ml b := by
  unfold flush
  split
  · exact ⟨hq, by simp⟩
  · cases hres : (sendHttpBatch c.config c.queue tr).result with
    | ok a =>
        simp only [hres]
        refine ⟨hin, ?_⟩
        intro b hb
        simp only [List.mem_singleton] at hb
        rw [hb]
        exact hq
    | error msg =>
        simp only [hres]
        refine ⟨?_, ?_⟩
        · intro r hr
          rcases List.mem_append.mp hr with h | h
          · exact hq r h
          · exact hin r h
        · intro b hb
          simp only [List.mem_singleton] at hb
          rw [hb]
          exact hq

/-- A log call preserves the queue filter invariant: the appended
record's level passed the filter. -/
theorem log_invariant (ml : TbLevel) (c : TimberlogsClient) (e : LogEntry)
    (hml : c.config.minLevel = ml) (hq : QueueOK ml c.queue) :
    QueueOK ml (c.log e).client.queue := by
  unfold TimberlogsClient.log
  split
  · exact hq
  · rename_i hpass
    rw [Bool.not_eq_true, Bool.not_eq_false] at hpass
    split
    · exact hq
    · intro r hr
      rcases List.mem_append.mp hr with h | h
      · exact hq r h
      · simp only [List.mem_singleton] at h
        rw [h]
        show LOG_LEVEL_PRIORITY ml ≤ LOG_LEVEL_PRIORITY e.level
        have := hpass
        unfold shouldLog at this
        rw [hml] at this
        exact of_decide_eq_true this

/-- A single operation preserves the queue filter invariant and hands
only invariant-satisfying batches to the transport. -/
theorem runOp_invariant (ml : TbLevel) (c : TimberlogsClient)
    (op : ClientOp) (hml : c.config.minLevel = ml)
    (hq : QueueOK ml c.queue) :
    QueueOK ml (runOp c op).1.queue ∧
    ∀ b ∈ (runOp c op).2.batches, QueueOK ml b := by
  cases op with
  | logOp e tr =>
      have hlog := log_invariant ml c e hml hq
      simp only [runOp]
      split
      · have hf := flush_invariant ml (c.log e).client tr [] hlog
          (by intro r hr; cases hr)
        exact ⟨hf.1, hf.2⟩
      · exact ⟨hlog, by simp⟩
  | setUser u => exact ⟨hq, by intro b hb; simp [runOp] at hb⟩
  | setSession s => exact ⟨hq, by intro b hb; simp [runOp] at hb⟩
  | flushOp tr =>
      have hf := flush_invariant ml c tr [] hq (by intro r hr; cases hr)
      simp only [runOp]
      exact ⟨hf.1, hf.2⟩

/-- Across any operation sequence the queue and every delivered batch
satisfy the level filter invariant. -/
theorem runOps_invariant (ml : TbLevel) :
    ∀ (ops : List ClientOp) (c : TimberlogsClient),
      c.config.minLevel = ml → QueueOK ml c.queue →
      QueueOK ml (runOps c ops).1.queue ∧
      ∀ b ∈ (runOps c ops).2.batches, QueueOK ml b := by
  intro ops
  induction ops with
  | nil => intro c _ hq; exact ⟨hq, by simp [runOps, Trace.append]⟩
  | cons op rest ih =>
      intro c hml hq
      have h1 := runOp_invariant ml c op hml hq
      have hml' : (runOp c op).1.config.minLevel = ml := by
        rw [runOp_minLevel, hml]
      have h2 := ih (runOp c op).1 hml' h1.1
      refine ⟨h2.1, ?_⟩
      intro b hb
      simp only [runOps, Trace.append, List.mem_append] at hb
      rcases hb with hb | hb
      · exact h1.2 b hb
      · exact h2.2 b hb

/-- C4: the level filter emits `L` iff `rank L ≥ rank minLevel` under
debug = 0, info = 1, warn = 2, error = 3; consequently, starting from
an empty queue, no operation sequence ever puts a record with a level
below `minLevel` into the queue or into any delivered batch. -/
theorem level_filter_invariant (cfg : ClientConfig) (L : TbLevel) :
    (shouldLog cfg L = true ↔
      LOG_LEVEL_PRIORITY L ≥ LOG_LEVEL_PRIORITY cfg.minLevel) ∧
    (∀ (c : TimberlogsClient) (ops : List ClientOp),
      c.config = cfg → c.queue = [] →
      LOG_LEVEL_PRIORITY L < LOG_LEVEL_PRIORITY cfg.minLevel →
      (∀ r ∈ (runOps c ops).1.queue, r.level ≠ L) ∧
      (∀ b ∈ (runOps c ops).2.batches, ∀ r ∈ b, r.level ≠ L)) := by
  constructor
  · simp [shouldLog]
  · intro c ops hcfg hq hlt
    have h := runOps_invariant cfg.minLevel ops c (by rw [hcfg])
      (by rw [hq]; intro r hr; cases hr)
    constructor
    · intro r hr heq
      have hle := h.1 r hr
      rw [heq] at hle
      omega
    · intro b hb r hr heq
      have hle := h.2 b hb r hr
      rw [heq] at hle
      omega

/-- Witness for C4: with `minLevel = warn`, a debug-then-error sequence
leaves no debug record in the final queue, and the filter iff holds at
debug. -/
theorem level_filter_invariant_witness :
    TbLevel.debug ∉ ((runOps sampleClientWarn
      [.logOp { level := .debug, message := "d" } failTransport,
        .logOp { level := .error, message := "e" } failTransport]).1.queue.map
        (·.level)) ∧
    (shouldLog sampleClientWarn.config .debug = true ↔
      LOG_LEVEL_PRIORITY .debug ≥
        LOG_LEVEL_PRIORITY sampleClientWarn.config.minLevel) := by
  have h := level_filter_invariant sampleClientWarn.config .debug
  refine ⟨?_, h.1⟩
  intro hmem
  simp only [List.mem_map] at hmem
  obtain ⟨r, hr, hrl⟩ := hmem
  exact (h.2 sampleClientWarn _ rfl rfl (by decide)).1 r hr hrl

/-- A valid surviving `log` call fires the size-threshold flush exactly
when the post-append length reaches `batchSize`. -/
theorem log_triggered_of_valid (c : TimberlogsClient) (e : LogEntry)
    (hpass : shouldLog c.config e.level = true)
    (hvalid : validateLogEntry e = none) :
    ((c.log e).triggered = true ↔
      c.config.batchSize ≤ ((c.queue.length + 1 : Nat) : ℚ)) := by
  unfold TimberlogsClient.log
  rw [hvalid]
  simp [hpass]

/-- An operation that is a `log` of a valid entry surviving the filter
(under the given config). -/
def GoodLogOp (cfg : ClientConfig) (op : ClientOp) : Prop :=
  ∃ e tr, op = .logOp e tr ∧ shouldLog cfg e.level = true ∧
    validateLogEntry e = none

/-- Running valid surviving log calls whose total stays within the
batch size throws nothing; strictly below the threshold no flush is
triggered and the queue grows by one per call, and exactly reaching the
threshold triggers exactly one flush. -/
theorem runOps_below_threshold (b : Nat) :
    ∀ (ops : List ClientOp) (c : TimberlogsClient),
      c.config.batchSize = (b : ℚ) →
      (∀ op ∈ ops, GoodLogOp c.config op) →
      c.queue.length + ops.length ≤ b →
      (runOps c ops).2.thrown = [] ∧
      (c.queue.length + ops.length < b →
        (runOps c ops).2.triggers = 0 ∧
        (runOps c ops).1.queue.length = c.queue.length + ops.length) ∧
      (c.queue.length + ops.length = b → ops ≠ [] →
        (runOps c ops).2.triggers = 1) := by
  intro ops
  induction ops with
  | nil =>
      intro c hb hops hlen
      refine ⟨rfl, ?_, ?_⟩
      · intro _
        exact ⟨rfl, by simp [runOps]⟩
      · intro _ hne
        exact absurd rfl hne
  | cons op rest ih =>
      intro c hb hops hlen
      obtain ⟨e, tr, rfl, hpass, hvalid⟩ :=
        hops op (List.mem_cons_self op rest)
      have hout := log_enqueued_of_valid c e hpass hvalid
      have htrig := log_triggered_of_valid c e hpass hvalid
      have hqlen : (c.log e).client.queue.length = c.queue.length + 1 := by
        rw [hout.2.2.1]
        simp
      simp only [List.length_cons] at hlen
      rcases Nat.lt_or_ge (c.queue.length + 1) b with hcase | hcase
      · -- below threshold: no trigger on this call
        have htf : ¬ (c.log e).triggered = true := by
          intro ht
          have hle := htrig.mp ht
          rw [hb] at hle
          have : b ≤ c.queue.length + 1 := by exact_mod_cast hle
          omega
        have hb' : (c.log e).client.config.batchSize = (b : ℚ) := by
          rw [hout.2.2.2, hb]
        have hops' : ∀ o ∈ rest, GoodLogOp (c.log e).client.config o := by
          intro o ho
          rw [hout.2.2.2]
          exact hops o (List.mem_cons_of_mem _ ho)
        have hlen' : (c.log e).client.queue.length + rest.length ≤ b := by
          rw [hqlen]
          omega
        have hrest := ih (c.log e).client hb' hops' hlen'
        simp only [runOps, runOp]
        rw [if_neg htf]
        simp only [Trace.append, hout.2.1, Option.toList_none,
          List.nil_append]
        refine ⟨hrest.1, ?_, ?_⟩
        · intro hlt
          simp only [List.length_cons] at hlt
          have h2 := hrest.2.1 (by rw [hqlen]; omega)
          refine ⟨by rw [h2.1], ?_⟩
          rw [h2.2, hqlen]
          simp only [List.length_cons]
          omega
        · intro heq _
          simp only [List.length_cons] at heq
          have hrne : rest ≠ [] := by
            intro h0
            rw [h0] at heq
            simp at heq
            omega
          have h3 := hrest.2.2 (by rw [hqlen]; omega) hrne
          rw [h3]
      · -- threshold reached: this call triggers, and it is the last one
        have hkb : c.queue.length + 1 = b := by omega
        have hrest0 : rest = [] := by
          have : rest.length = 0 := by omega
          exact List.length_eq_zero.mp this
        subst hrest0
        have htt : (c.log e).triggered = true := by
          rw [htrig, hb, hkb]
        simp only [runOps, runOp]
        rw [if_pos htt]
        simp only [Trace.append, hout.2.1, Option.toList_none,
          List.nil_append]
        refine ⟨?_, ?_, ?_⟩
        · trivial
        · intro hlt
          simp only [List.length_cons, List.length_nil] at hlt
          omega
        · intro _ _
          trivial

/-- C7: from an empty queue, a sequence of exactly `batchSize` valid
surviving logging calls triggers exactly one flush — none before the
last call — and no call throws, whatever the transport then does. -/
theorem batch_threshold_single_flush (c : TimberlogsClient) (b : Nat)
    (ops : List ClientOp)
    (hb : c.config.batchSize = (b : ℚ))
    (hq : c.queue = [])
    (hops : ∀ op ∈ ops, GoodLogOp c.config op)
    (hlen : ops.length = b) (hb1 : 1 ≤ b) :
    (runOps c ops).2.triggers = 1 ∧
    (runOps c ops).2.thrown = [] ∧
    (runOps c ops.dropLast).2.triggers = 0 := by
  have hq0 : c.queue.length = 0 := by rw [hq]; rfl
  have h := runOps_below_threshold b ops c hb hops (by omega)
  refine ⟨h.2.2 (by omega) ?_, h.1, ?_⟩
  · intro h0
    rw [h0] at hlen
    simp at hlen
    omega
  · have hops' : ∀ op ∈ ops.dropLast, GoodLogOp c.config op := by
      intro op hop
      exact hops op (List.dropLast_subset _ hop)
    have hd := runOps_below_threshold b ops.dropLast c hb hops'
      (by rw [List.length_dropLast]; omega)
    exact (hd.2.1 (by rw [List.length_dropLast]; omega)).1

/-- A valid surviving log operation reused by the C7 witness. -/
def sampleLogOp : ClientOp :=
  .logOp { level := .info, message := "m" } failTransport

/-- Witness for C7: ten valid info logs on a fresh client with
batchSize 10 trigger exactly one flush, at the tenth call, throwing
nothing. -/
theorem batch_threshold_single_flush_witness :
    (runOps sampleClientKeyed (List.replicate 10 sampleLogOp)).2.triggers
      = 1 ∧
    (runOps sampleClientKeyed (List.replicate 10 sampleLogOp)).2.thrown
      = [] ∧
    (runOps sampleClientKeyed
      (List.replicate 10 sampleLogOp).dropLast).2.triggers = 0 := by
  have h := batch_threshold_single_flush sampleClientKeyed 10
    (List.replicate 10 sampleLogOp) (by norm_num [sampleClientKeyed]) rfl ?_
    (by decide) (by omega)
  · exact h
  · intro op hop
    rw [List.eq_of_mem_replicate hop]
    exact ⟨{ level := .info, message := "m" }, failTransport, rfl,
      by decide, by decide⟩




